import Mathlib

/-!
Verification development for the OpenFlexure timelapse controller
(`openflexure-example.py`).

The embedding covers the parts of the script the specification's claims are
about:

* `parse_time_value` — the duration-string parser (lines 166-181 of the
  source).  The Python function matches the anchored regular expression
  `^\s*(?:(\d+)\s*d)?\s*(?:(\d+)\s*h)?\s*(?:(\d+)\s*m)?\s*(?:(\d+)\s*s)?\s*$`
  case-insensitively against the stripped input and sums the captured
  groups with weights 86400/3600/60/1.  The embedding is a deterministic
  recursive-descent reading of that regex over `List Char`.  Determinism is
  faithful: in each optional group `(?:(\d+)\s*X)?` a shorter match of
  `\d+` leaves a digit where the letter `X` is required, and a shorter
  match of `\s*` leaves a whitespace character there, so the greedy
  maximal-munch parse is the only parse the backtracking engine can accept.
* `AppState` together with `update_led`, `toggle_external_preview`,
  `start_timelapse`, `capture_loop`, `stop_timelapse`, `reset_controls`,
  `cleanup` — the GUI state machine (LED brightness slider, preview toggle,
  timelapse scheduler).  Brightness values are modelled as exact rationals
  (the script only ever compares the stored value with `0.0` and copies it
  around, so no floating-point behaviour is relevant); wall-clock time is
  modelled as natural-number seconds; `tkinter.after` handles are modelled
  by an `Option Nat` field `afterId` (the script's `self.after_id`)
  together with `pending`, the callback actually armed in the toolkit
  (consumed when it fires, cleared by `after_cancel`).
* `Reach` / `ReachOk` — states reachable through the user interface, with
  the gating the script enforces (controls are usable only while enabled,
  a tick fires only when armed, stop is available only while running).
  `ReachOk` additionally restricts every capture to succeed.
-/

namespace LCI

/-! ## Character classes of the regex -/

/-- Characters matched by the regex class `\s` (the ASCII ones; the inputs
in the claims are ASCII). -/
def isWS (c : Char) : Bool :=
  c == ' ' || c == '\t' || c == '\n' || c == '\r' || c == '\x0b' || c == '\x0c'

/-- Characters matched by the regex class `\d` (ASCII decimal digits). -/
def isDigitA (c : Char) : Bool :=
  '0' ≤ c && c ≤ '9'

/-- The regex `\s*` (also Python's `str.strip` on the left): drop leading
whitespace. -/
def skipWS : List Char → List Char
  | [] => []
  | c :: cs => if isWS c then skipWS cs else c :: cs

/-- The greedy `\d+`: split the longest digit run off the front. -/
def takeDigits : List Char → List Char × List Char
  | [] => ([], [])
  | c :: cs =>
    if isDigitA c then
      let p := takeDigits cs
      (c :: p.1, p.2)
    else ([], c :: cs)

/-- Numeric value of a decimal digit run, as Python's `int` computes it. -/
def digitsToNat (ds : List Char) : Nat :=
  ds.foldl (fun a c => a * 10 + (c.toNat - 48)) 0

/-- One optional group `(?:(\d+)\s*X)?` of the regex, with `X` one of the
two letter cases `lo`/`hi`.  If the digits or the unit letter are not
there, the group matches the empty string and consumes nothing. -/
def component (lo hi : Char) (cs : List Char) : Option Nat × List Char :=
  let p := takeDigits cs
  match p.1, skipWS p.2 with
  | [], _ => (none, cs)
  | _ :: _, [] => (none, cs)
  | _ :: _, c :: rest =>
    if c == lo || c == hi then (some (digitsToNat p.1), rest) else (none, cs)

/-- `parse_time_value` from the script: parse strings like `1d 2h 30m 5s`
into total seconds, `none` on a failed match.  Mirrors the anchored regex:
leading `\s*`, the four optional case-insensitive groups each preceded by
`\s*`, then `\s*$`. -/
def parse_time_value (s : List Char) : Option Nat :=
  let p1 := component 'd' 'D' (skipWS s)
  let p2 := component 'h' 'H' (skipWS p1.2)
  let p3 := component 'm' 'M' (skipWS p2.2)
  let p4 := component 's' 'S' (skipWS p3.2)
  if (skipWS p4.2).isEmpty then
    some (p1.1.getD 0 * 86400 + p2.1.getD 0 * 3600 + p3.1.getD 0 * 60 + p4.1.getD 0)
  else none

/-! ## Valid TimeSpec strings -/

/-- One present component of a TimeSpec string: a digit run `ds`, the
whitespace `iw` between the digits and the unit letter, and the unit
letter `u` (either case). -/
structure TComp where
  ds : List Char
  iw : List Char
  u : Char
deriving Repr, DecidableEq

/-- Text of an optional component (absent components render to nothing). -/
def crender : Option TComp → List Char
  | none => []
  | some c => c.ds ++ c.iw ++ [c.u]

/-- Numeric value of an optional component (absent counts as zero). -/
def cval : Option TComp → Nat
  | none => 0
  | some c => digitsToNat c.ds

/-- Captured-group result of an optional component. -/
def cres : Option TComp → Option Nat
  | none => none
  | some c => some (digitsToNat c.ds)

/-- A well-formed optional component for the unit letter `lo`/`hi`. -/
def compValid (o : Option TComp) (lo hi : Char) : Prop :=
  ∀ c ∈ o, c.ds ≠ [] ∧ c.ds.all isDigitA = true ∧ c.iw.all isWS = true ∧
    (c.u = lo ∨ c.u = hi)

instance (o : Option TComp) (lo hi : Char) : Decidable (compValid o lo hi) :=
  match o with
  | none => isTrue (by intro c hc; cases hc)
  | some c =>
    decidable_of_iff
      (c.ds ≠ [] ∧ c.ds.all isDigitA = true ∧ c.iw.all isWS = true ∧
        (c.u = lo ∨ c.u = hi))
      (by simp [compValid])

/-- Shape of the input remaining after a group: either nothing is left
(up to whitespace) or a later component stands first, with its unit
letter drawn from `L`. -/
def StartsOK (L : List Char) (cs : List Char) : Prop :=
  cs = [] ∨ ∃ ds iw u r, cs = ds ++ (iw ++ u :: r) ∧ ds ≠ [] ∧
    ds.all isDigitA = true ∧ iw.all isWS = true ∧ u ∈ L

/-- Unit letters of later components never satisfy an earlier group. -/
def LettersApart (L : List Char) (lo hi : Char) : Prop :=
  ∀ u ∈ L, u ≠ lo ∧ u ≠ hi ∧ isWS u = false ∧ isDigitA u = false

instance (L : List Char) (lo hi : Char) : Decidable (LettersApart L lo hi) :=
  List.decidableBAll _ L


/-! ## The application state machine

The fields of `AppState` are the pieces of `App` state the claims are
about.  `illum` is `self.sb.illumination.cc_led` (the hardware LED
brightness), `afterId` is `self.after_id` (the field keeps its last value
even after the timer fired or was cancelled, exactly as in the script),
and `pending` is the callback currently armed in the toolkit: `root.after`
sets it, its firing consumes it, `root.after_cancel` on its id clears it.
`controlsEnabled` stands for the enabled/disabled state of the control
group that `start_timelapse` disables and `reset_controls` re-enables.
`folder` records the session directory (named by its creation time), and
`endTime` is `self.end_time`; times are natural-number seconds. -/
structure AppState where
  led_brightness : ℚ
  illum : ℚ
  previewing : Bool
  running : Bool
  controlsEnabled : Bool
  afterId : Option Nat
  pending : Option Nat
  endTime : Nat
  folder : Option Nat
  lastImage : Option Nat
deriving Repr, DecidableEq

/-- The script's `DEFAULT_LED_BRIGHTNESS = 0.33`, as an exact rational. -/
def DEFAULT_LED_BRIGHTNESS : ℚ := mkRat 33 100

/-- State after `App.__init__`: LED driven to 0.0 (line 197), defaults
loaded, nothing previewing or running, no timer ever armed. -/
def initState : AppState :=
  { led_brightness := DEFAULT_LED_BRIGHTNESS
    illum := 0
    previewing := false
    running := false
    controlsEnabled := true
    afterId := none
    pending := none
    endTime := 0
    folder := none
    lastImage := none }

/-- `App.update_led`: store the slider value, and drive the hardware LED
only while previewing. -/
def update_led (st : AppState) (v : ℚ) : AppState :=
  let st1 := { st with led_brightness := v }
  if st1.previewing then { st1 with illum := v } else st1

/-- `App.toggle_external_preview`: switch the preview on (LED to the
stored brightness) or off (LED to 0.0). -/
def toggle_external_preview (st : AppState) : AppState :=
  if st.previewing = false then
    { st with illum := st.led_brightness, previewing := true }
  else
    { st with illum := 0, previewing := false }

/-- The preview-shutdown block at the top of `App.start_timelapse`
(lines 463-470): if a preview is active, stop it and drive the LED to
0.0 before anything else happens. -/
def stop_preview_if (st : AppState) : AppState :=
  if st.previewing then { st with illum := 0, previewing := false } else st

/-- The start-request validation (line 474): `not duration or duration <= 0`
rejects both a failed parse and a zero duration. -/
def validOpt : Option Nat → Bool
  | none => false
  | some n => decide (0 < n)

/-- `App.reset_controls`: re-enable the control group and mark the
session as not running. -/
def reset_controls (st : AppState) : AppState :=
  { st with controlsEnabled := true, running := false }

/-- `App.finish_timelapse`: surface the completion dialog and reset. -/
def finish_timelapse (st : AppState) : AppState :=
  reset_controls st

/-- One invocation of `App.capture_loop` at wall-clock time `now`.
`capOk` tells whether `self.cam.take_photo` returns normally; when it
raises, the exception propagates out of the timer callback, so the lines
that restore the LED and re-arm the timer never run.  `thumbOk` tells
whether the thumbnail decode inside the `try`/`except` block succeeds;
either way execution continues.  `tid` is the fresh timer id handed out
by `root.after`. -/
def capture_loop (st : AppState) (_freq now tid : Nat) (capOk thumbOk : Bool) : AppState :=
  if st.endTime ≤ now then finish_timelapse st
  else
    let st1 := { st with illum := st.led_brightness }
    if capOk then
      let st2 := { st1 with illum := 0 }
      let st3 := if thumbOk then { st2 with lastImage := some now } else st2
      { st3 with afterId := some tid, pending := some tid }
    else st1

/-- `App.start_timelapse`: stop any preview, parse and validate the two
entry strings, and on success disable the controls, create the session
folder, record `end_time`, mark the session running and run the first
`capture_loop` tick immediately.  On a failed validation an error dialog
is shown and the method returns. -/
def start_timelapse (st : AppState) (durS freqS : List Char) (now tid : Nat)
    (capOk thumbOk : Bool) : AppState :=
  let st1 := stop_preview_if st
  let dur := parse_time_value durS
  let freq := parse_time_value freqS
  if validOpt dur && validOpt freq then
    let st2 := { st1 with
      controlsEnabled := false
      folder := some now
      endTime := now + dur.getD 0
      running := true }
    capture_loop st2 (freq.getD 0) now tid capOk thumbOk
  else st1

/-- `tkinter.after_cancel` on the scheduling state: called with `None`
it raises (`Option.none` result); called with a stale id it is a Tcl
no-op; called with the armed id it disarms the callback. -/
def after_cancel (pending : Option Nat) : Option Nat → Option (Option Nat)
  | none => none
  | some i => some (if pending = some i then none else pending)

/-- `App.stop_timelapse` with its possible failure: the guard
`if self.after_id:` skips `after_cancel` when no id was ever stored
(which would raise), then the stop dialog is shown and the controls
reset.  A `none` result would mean an uncaught exception. -/
def stop_run (st : AppState) : Option AppState :=
  match st.afterId with
  | none => some (reset_controls st)
  | some i =>
    match after_cancel st.pending (some i) with
    | none => none
    | some p => some (reset_controls { st with pending := p })

/-- `App.stop_timelapse` as a state transformer (it never raises, which
`stop_run` makes explicit). -/
def stop_timelapse (st : AppState) : AppState :=
  (stop_run st).getD st

/-- `App.cleanup`: drive the LED to 0.0 and release the hardware. -/
def cleanup (st : AppState) : AppState :=
  { st with illum := 0 }

/-! ## Reachable states

States reachable through the user interface, with the gating the script
enforces: the sliders, the preview toggle and the start button respond
only while the control group is enabled; the start button runs
`start_timelapse` only while no session is running (during a session it
is rebound to `stop_timelapse`); a tick of `capture_loop` fires only when
a callback is armed, and firing consumes the armed callback; the window
can be closed (`cleanup`) at any time. -/

inductive Reach : AppState → Prop where
  | init : Reach initState
  | led (st : AppState) (v : ℚ) : Reach st → st.controlsEnabled = true →
      Reach (update_led st v)
  | preview (st : AppState) : Reach st → st.controlsEnabled = true →
      Reach (toggle_external_preview st)
  | start (st : AppState) (durS freqS : List Char) (now tid : Nat)
      (capOk thumbOk : Bool) : Reach st → st.controlsEnabled = true →
      st.running = false →
      Reach (start_timelapse st durS freqS now tid capOk thumbOk)
  | tick (st : AppState) (freq now tid tid2 : Nat) (capOk thumbOk : Bool) :
      Reach st → st.running = true → st.pending = some tid →
      Reach (capture_loop { st with pending := none } freq now tid2 capOk thumbOk)
  | stop (st : AppState) : Reach st → st.running = true →
      Reach (stop_timelapse st)
  | clean (st : AppState) : Reach st → Reach (cleanup st)

/-- Reachability when every photo acquisition succeeds (`capOk = true`
everywhere); thumbnail decoding may still fail. -/
inductive ReachOk : AppState → Prop where
  | init : ReachOk initState
  | led (st : AppState) (v : ℚ) : ReachOk st → st.controlsEnabled = true →
      ReachOk (update_led st v)
  | preview (st : AppState) : ReachOk st → st.controlsEnabled = true →
      ReachOk (toggle_external_preview st)
  | start (st : AppState) (durS freqS : List Char) (now tid : Nat)
      (thumbOk : Bool) : ReachOk st → st.controlsEnabled = true →
      st.running = false →
      ReachOk (start_timelapse st durS freqS now tid true thumbOk)
  | tick (st : AppState) (freq now tid tid2 : Nat) (thumbOk : Bool) :
      ReachOk st → st.running = true → st.pending = some tid →
      ReachOk (capture_loop { st with pending := none } freq now tid2 true thumbOk)
  | stop (st : AppState) : ReachOk st → st.running = true →
      ReachOk (stop_timelapse st)
  | clean (st : AppState) : ReachOk st → ReachOk (cleanup st)

/-- Inductive invariant of failure-free reachable states: the LED is off
outside a preview, previews and sessions never overlap, a running session
keeps the control group disabled, and an armed callback id is always the
one stored in `after_id`. -/
def InvOk (st : AppState) : Prop :=
  (st.previewing = false → st.illum = 0) ∧
  (st.running = true → st.previewing = false) ∧
  (st.running = true → st.controlsEnabled = false) ∧
  (∀ i, st.pending = some i → st.afterId = some i)

/-! ## Concrete scenario states -/

/-- The state `start_timelapse` builds for a 30-second session with a
5-second interval started at time 0, just before it runs the first tick
of `capture_loop`. -/
def startedA : AppState :=
  { initState with
    controlsEnabled := false
    folder := some 0
    endTime := 30
    running := true }

/-- A 30-minute/5-second session started at time 0 whose first capture
fails (`take_photo` raises). -/
def stBad : AppState :=
  start_timelapse initState ['3', '0', 'm'] ['5', 's'] 0 1 false true

/-- The state after pressing stop in `stBad`. -/
def stBadIdle : AppState := stop_timelapse stBad

/-- A 30-second/5-second session started at time 0 with a successful
first capture. -/
def stGood : AppState :=
  start_timelapse initState ['3', '0', 's'] ['5', 's'] 0 1 true true

/-- The state with the external preview switched on. -/
def stPrev : AppState := toggle_external_preview initState

/-- The self-re-arming tick chain of `capture_loop` under Scenario A's
assumptions: instantaneous successful captures, so the callback armed at
time `now` with interval `freq` fires at `now + freq`.  Returns the times
at which a capture was initiated, the time at which the tick chain ended
(`none` if the fuel ran out first), and the final state.  The chain
continues exactly while the tick re-armed itself, that is while the
session is still running. -/
def run_schedule : Nat → AppState → Nat → Nat → List Nat × Option Nat × AppState
  | 0, st, _, _ => ([], none, st)
  | fuel + 1, st, freq, now =>
    let st1 := capture_loop st freq now 0 true true
    if st1.running = false then ([], some now, st1)
    else
      let r := run_schedule fuel { st1 with pending := none } freq (now + freq)
      (now :: r.1, r.2.1, r.2.2)

/-! ## Theorems: the TimeSpec parser -/
/-! ## Lemmas about the character-level helpers -/

theorem isWS_elim {c : Char} (h : isWS c = true) :
    c = ' ' ∨ c = '\t' ∨ c = '\n' ∨ c = '\r' ∨ c = '\x0b' ∨ c = '\x0c' := by
  simp only [isWS, Bool.or_eq_true, beq_iff_eq] at h
  tauto

theorem not_digit_of_ws {c : Char} (h : isWS c = true) : isDigitA c = false := by
  rcases isWS_elim h with rfl | rfl | rfl | rfl | rfl | rfl <;> decide

theorem not_ws_of_digit {c : Char} (h : isDigitA c = true) : isWS c = false := by
  by_contra hws
  rw [Bool.not_eq_false] at hws
  rw [not_digit_of_ws hws] at h
  exact Bool.false_ne_true h

theorem skipWS_append {w : List Char} (cs : List Char) (hw : w.all isWS = true) :
    skipWS (w ++ cs) = skipWS cs := by
  induction w with
  | nil => rfl
  | cons c w ih =>
    rw [List.all_cons, Bool.and_eq_true] at hw
    simp [skipWS, hw.1, ih hw.2]

theorem skipWS_eq_nil {w : List Char} (hw : w.all isWS = true) : skipWS w = [] := by
  have := skipWS_append (w := w) [] hw
  simpa using this

theorem skipWS_cons_of_not {c : Char} (cs : List Char) (hc : isWS c = false) :
    skipWS (c :: cs) = c :: cs := by
  simp [skipWS, hc]

theorem skipWS_idem (cs : List Char) : skipWS (skipWS cs) = skipWS cs := by
  induction cs with
  | nil => rfl
  | cons c cs ih =>
    by_cases hc : isWS c = true
    · simp [skipWS, hc, ih]
    · rw [Bool.not_eq_true] at hc
      simp [skipWS, hc]

theorem takeDigits_append {ds : List Char} (rest : List Char)
    (hds : ds.all isDigitA = true)
    (hrest : ∀ c, rest.head? = some c → isDigitA c = false) :
    takeDigits (ds ++ rest) = (ds, rest) := by
  induction ds with
  | nil =>
    cases rest with
    | nil => rfl
    | cons c r => simp [takeDigits, hrest c rfl]
  | cons c ds ih =>
    rw [List.all_cons, Bool.and_eq_true] at hds
    simp [takeDigits, hds.1, ih hds.2]

/-! ## Behaviour of one optional regex group -/

theorem component_nil (lo hi : Char) : component lo hi [] = (none, []) := rfl

theorem component_head_not_digit (lo hi : Char) {c : Char} (cs : List Char)
    (hc : isDigitA c = false) :
    component lo hi (c :: cs) = (none, c :: cs) := by
  simp [component, takeDigits, hc]

/-- Common shape facts for a rendered component `ds ++ iw ++ u :: rest`. -/
theorem component_split {ds iw : List Char} {u : Char} (rest : List Char)
    (hds : ds.all isDigitA = true) (hiw : iw.all isWS = true)
    (hu1 : isDigitA u = false) (hu2 : isWS u = false) :
    takeDigits (ds ++ (iw ++ u :: rest)) = (ds, iw ++ u :: rest) ∧
      skipWS (iw ++ u :: rest) = u :: rest := by
  refine ⟨takeDigits_append _ hds ?_, ?_⟩
  · intro c hc
    cases iw with
    | nil =>
      simp only [List.nil_append, List.head?_cons, Option.some.injEq] at hc
      exact hc ▸ hu1
    | cons a iw' =>
      simp only [List.cons_append, List.head?_cons, Option.some.injEq] at hc
      rw [List.all_cons, Bool.and_eq_true] at hiw
      exact hc ▸ not_digit_of_ws hiw.1
  · rw [skipWS_append _ hiw, skipWS_cons_of_not _ hu2]

theorem component_match (lo hi u : Char) {ds iw : List Char} (rest : List Char)
    (hne : ds ≠ []) (hds : ds.all isDigitA = true) (hiw : iw.all isWS = true)
    (hu1 : isDigitA u = false) (hu2 : isWS u = false)
    (huc : (u == lo || u == hi) = true) :
    component lo hi (ds ++ (iw ++ u :: rest)) = (some (digitsToNat ds), rest) := by
  obtain ⟨htd, hsk⟩ := component_split rest hds hiw hu1 hu2
  rw [Bool.or_eq_true, beq_iff_eq, beq_iff_eq] at huc
  cases ds with
  | nil => exact absurd rfl hne
  | cons d0 ds' =>
    rw [List.cons_append] at htd
    simp [component, htd, hsk, huc]

theorem component_wrong (lo hi u : Char) {ds iw : List Char} (rest : List Char)
    (hne : ds ≠ []) (hds : ds.all isDigitA = true) (hiw : iw.all isWS = true)
    (hu1 : isDigitA u = false) (hu2 : isWS u = false)
    (hlo : (u == lo) = false) (hhi : (u == hi) = false) :
    component lo hi (ds ++ (iw ++ u :: rest)) = (none, ds ++ (iw ++ u :: rest)) := by
  obtain ⟨htd, hsk⟩ := component_split rest hds hiw hu1 hu2
  rw [beq_eq_false_iff_ne] at hlo hhi
  cases ds with
  | nil => exact absurd rfl hne
  | cons d0 ds' =>
    rw [List.cons_append] at htd
    simp [component, htd, hsk, hlo, hhi]

theorem cres_getD (o : Option TComp) : (cres o).getD 0 = cval o := by
  cases o <;> rfl

theorem component_skip (lo hi : Char) {L cs : List Char}
    (hs : StartsOK L cs) (hL : LettersApart L lo hi) :
    component lo hi cs = (none, cs) := by
  rcases hs with rfl | ⟨ds, iw, u, r, rfl, hne, hds, hiw, huL⟩
  · exact component_nil lo hi
  · obtain ⟨h1, h2, h3, h4⟩ := hL u huL
    exact component_wrong lo hi u r hne hds hiw h4 h3
      (beq_eq_false_iff_ne.2 h1) (beq_eq_false_iff_ne.2 h2)

/-- A rendered component (or nothing) in front of input `rest` keeps the
`StartsOK` shape, provided its own unit letters belong to `L`. -/
theorem startsOK_cons (o : Option TComp) (lo hi : Char) {L : List Char}
    (w rest : List Char) (ho : compValid o lo hi) (hw : w.all isWS = true)
    (hlo : lo ∈ L) (hhi : hi ∈ L) (hrest : StartsOK L (skipWS rest)) :
    StartsOK L (skipWS (w ++ (crender o ++ rest))) := by
  rw [skipWS_append _ hw]
  cases o with
  | none => simpa [crender] using hrest
  | some c =>
    obtain ⟨hne, hds, hiw, hu⟩ := ho c rfl
    right
    refine ⟨c.ds, c.iw, c.u, rest, ?_, hne, hds, hiw, ?_⟩
    · have hdig : isWS (c.ds.headI) = false := by
        cases hd : c.ds with
        | nil => exact absurd hd hne
        | cons a l =>
          rw [hd, List.all_cons, Bool.and_eq_true] at hds
          exact not_ws_of_digit hds.1
      cases hd : c.ds with
      | nil => exact absurd hd hne
      | cons a l =>
        rw [hd] at hdig
        simp only [crender, hd]
        rw [List.headI] at hdig
        simp only [List.cons_append, List.append_assoc, List.singleton_append,
          List.nil_append]
        rw [skipWS_cons_of_not _ hdig]
    · rcases hu with h | h
      · exact h ▸ hlo
      · exact h ▸ hhi

/-- One stage of `parse_time_value`: the group for `lo`/`hi` reads exactly
its own rendered component (if present) and leaves the rest, up to
whitespace. -/
theorem component_stage (lo hi : Char) (o : Option TComp) (t L : List Char)
    (ho : compValid o lo hi)
    (hlo : isDigitA lo = false ∧ isWS lo = false)
    (hhi : isDigitA hi = false ∧ isWS hi = false)
    (ht : StartsOK L (skipWS t)) (hL : LettersApart L lo hi) :
    (component lo hi (skipWS (crender o ++ t))).1 = cres o ∧
      skipWS (component lo hi (skipWS (crender o ++ t))).2 = skipWS t := by
  cases o with
  | none =>
    simp only [crender, List.nil_append, cres]
    rw [component_skip lo hi ht hL]
    exact ⟨rfl, skipWS_idem t⟩
  | some c =>
    obtain ⟨hne, hds, hiw, hu⟩ := ho c rfl
    have hu1 : isDigitA c.u = false := by rcases hu with h | h <;> rw [h]
      <;> [exact hlo.1; exact hhi.1]
    have hu2 : isWS c.u = false := by rcases hu with h | h <;> rw [h]
      <;> [exact hlo.2; exact hhi.2]
    have huc : (c.u == lo || c.u == hi) = true := by
      rcases hu with h | h <;> simp [h]
    have hshape : crender (some c) ++ t = c.ds ++ (c.iw ++ c.u :: t) := by
      simp [crender, List.append_assoc]
    have hskip : skipWS (c.ds ++ (c.iw ++ c.u :: t)) = c.ds ++ (c.iw ++ c.u :: t) := by
      cases hd : c.ds with
      | nil => exact absurd hd hne
      | cons a l =>
        rw [hd, List.all_cons, Bool.and_eq_true] at hds
        rw [List.cons_append]
        exact skipWS_cons_of_not _ (not_ws_of_digit hds.1)
    have hds' : c.ds.all isDigitA = true := by
      cases hd : c.ds with
      | nil => exact absurd hd hne
      | cons a l => rw [← hd]; exact (ho c rfl).2.1
    rw [hshape, hskip, component_match lo hi c.u t hne hds' hiw hu1 hu2 huc]
    exact ⟨rfl, rfl⟩

/-- C4: for every string of the form `<d>d <h>h <m>m <s>s` with any subset
of the four components present, in the fixed order d, h, m, s, in either
letter case, with optional whitespace around and between components,
`parse_time_value` succeeds and returns `d*86400 + h*3600 + m*60 + s`
total seconds, missing components counting as zero. -/
theorem parse_time_value_valid
    (oD oH oM oS : Option TComp) (w0 w1 w2 w3 w4 : List Char)
    (hw0 : w0.all isWS = true) (hw1 : w1.all isWS = true)
    (hw2 : w2.all isWS = true) (hw3 : w3.all isWS = true)
    (hw4 : w4.all isWS = true)
    (hD : compValid oD 'd' 'D') (hH : compValid oH 'h' 'H')
    (hM : compValid oM 'm' 'M') (hS : compValid oS 's' 'S') :
    parse_time_value
        (w0 ++ (crender oD ++ (w1 ++ (crender oH ++
          (w2 ++ (crender oM ++ (w3 ++ (crender oS ++ w4)))))))) =
      some (cval oD * 86400 + cval oH * 3600 + cval oM * 60 + cval oS) := by
  have hS4 : ∀ L : List Char, StartsOK L (skipWS w4) :=
    fun L => Or.inl (skipWS_eq_nil hw4)
  have ht3 : StartsOK ['s', 'S'] (skipWS (w3 ++ (crender oS ++ w4))) :=
    startsOK_cons oS 's' 'S' w3 w4 hS hw3 (by decide) (by decide) (hS4 _)
  have ht2 : StartsOK ['m', 'M', 's', 'S']
      (skipWS (w2 ++ (crender oM ++ (w3 ++ (crender oS ++ w4))))) :=
    startsOK_cons oM 'm' 'M' w2 _ hM hw2 (by decide) (by decide)
      (startsOK_cons oS 's' 'S' w3 w4 hS hw3 (by decide) (by decide) (hS4 _))
  have ht1 : StartsOK ['h', 'H', 'm', 'M', 's', 'S']
      (skipWS (w1 ++ (crender oH ++ (w2 ++ (crender oM ++ (w3 ++ (crender oS ++ w4))))))) :=
    startsOK_cons oH 'h' 'H' w1 _ hH hw1 (by decide) (by decide)
      (startsOK_cons oM 'm' 'M' w2 _ hM hw2 (by decide) (by decide)
        (startsOK_cons oS 's' 'S' w3 w4 hS hw3 (by decide) (by decide) (hS4 _)))
  have s1 := component_stage 'd' 'D' oD _ _ hD (by decide) (by decide) ht1 (by decide)
  have s2 := component_stage 'h' 'H' oH _ _ hH (by decide) (by decide) ht2 (by decide)
  have s3 := component_stage 'm' 'M' oM _ _ hM (by decide) (by decide) ht3 (by decide)
  have s4 := component_stage 's' 'S' oS _ _ hS (by decide) (by decide) (hS4 []) (by decide)
  simp only [parse_time_value]
  rw [skipWS_append _ hw0, s1.1, s1.2, skipWS_append _ hw1, s2.1, s2.2,
    skipWS_append _ hw2, s3.1, s3.2, skipWS_append _ hw3, s4.1, s4.2,
    skipWS_eq_nil hw4]
  simp [cres_getD]

/-- Witness for C4: the spec's own example `1h 30m 10s` parses to 5410
seconds, obtained by instantiating `parse_time_value_valid`. -/
theorem parse_time_value_valid_witness :
    parse_time_value ['1', 'h', ' ', '3', '0', 'm', ' ', '1', '0', 's'] = some 5410 := by
  have h := parse_time_value_valid none (some ⟨['1'], [], 'h'⟩)
      (some ⟨['3', '0'], [], 'm'⟩) (some ⟨['1', '0'], [], 's'⟩)
      [] [] [' '] [' '] [] (by decide) (by decide) (by decide) (by decide)
      (by decide) (by decide) (by decide) (by decide) (by decide)
  simpa using h

/-! ## Theorems: the application state machine -/

/-! ### Structural lemmas about the operations -/

theorem capture_loop_of_le (st : AppState) (freq now tid : Nat) (capOk thumbOk : Bool)
    (h : st.endTime ≤ now) :
    capture_loop st freq now tid capOk thumbOk = finish_timelapse st := by
  unfold capture_loop
  rw [if_pos h]

theorem capture_loop_ok (st : AppState) (freq now tid : Nat) (thumbOk : Bool)
    (h : ¬ st.endTime ≤ now) :
    capture_loop st freq now tid true thumbOk =
      { st with
        illum := 0
        afterId := some tid
        pending := some tid
        lastImage := if thumbOk then some now else st.lastImage } := by
  unfold capture_loop
  rw [if_neg h]
  cases thumbOk <;> rfl

theorem capture_loop_fail (st : AppState) (freq now tid : Nat) (thumbOk : Bool)
    (h : ¬ st.endTime ≤ now) :
    capture_loop st freq now tid false thumbOk =
      { st with illum := st.led_brightness } := by
  unfold capture_loop
  rw [if_neg h]
  rfl

theorem stop_preview_if_previewing (st : AppState) :
    (stop_preview_if st).previewing = false := by
  unfold stop_preview_if
  split
  · rfl
  · rename_i hp
    rw [Bool.not_eq_true] at hp
    exact hp

theorem stop_timelapse_of_none (st : AppState) (h : st.afterId = none) :
    stop_timelapse st = reset_controls st := by
  unfold stop_timelapse stop_run
  rw [h]
  rfl

theorem stop_timelapse_of_some (st : AppState) (i : Nat) (h : st.afterId = some i) :
    stop_timelapse st =
      reset_controls
        { st with pending := if st.pending = some i then none else st.pending } := by
  unfold stop_timelapse stop_run after_cancel
  rw [h]
  rfl

/-! ### The invariant is inductive -/

theorem invOk_capture (st : AppState) (freq now tid : Nat) (thumbOk : Bool)
    (h : InvOk st) : InvOk (capture_loop st freq now tid true thumbOk) := by
  obtain ⟨h1, h2, h3, h4⟩ := h
  by_cases hle : st.endTime ≤ now
  · rw [capture_loop_of_le st freq now tid true thumbOk hle]
    exact ⟨h1, fun hr => Bool.noConfusion hr, fun hr => Bool.noConfusion hr, h4⟩
  · rw [capture_loop_ok st freq now tid thumbOk hle]
    exact ⟨fun _ => rfl, h2, h3, fun _ hi => hi⟩

theorem invOk_stop (st : AppState) (h : InvOk st) : InvOk (stop_timelapse st) := by
  obtain ⟨h1, h2, h3, h4⟩ := h
  cases hA : st.afterId with
  | none =>
    rw [stop_timelapse_of_none st hA]
    exact ⟨h1, fun hr => Bool.noConfusion hr, fun hr => Bool.noConfusion hr,
      fun i hi => h4 i hi⟩
  | some j =>
    rw [stop_timelapse_of_some st j hA]
    refine ⟨h1, fun hr => Bool.noConfusion hr, fun hr => Bool.noConfusion hr,
      fun i hi => ?_⟩
    replace hi : (if st.pending = some j then none else st.pending) = some i := hi
    split at hi
    · cases hi
    · exact h4 i hi

theorem invOk_stop_preview (st : AppState) (h : InvOk st) :
    InvOk (stop_preview_if st) := by
  obtain ⟨h1, h2, h3, h4⟩ := h
  unfold stop_preview_if
  split
  · exact ⟨fun _ => rfl, fun _ => rfl, h3, h4⟩
  · exact ⟨h1, h2, h3, h4⟩

theorem reachOk_inv (st : AppState) (h : ReachOk st) : InvOk st := by
  induction h with
  | init =>
    exact ⟨fun _ => rfl, fun hr => Bool.noConfusion hr, fun hr => Bool.noConfusion hr,
      fun i hi => Option.noConfusion hi⟩
  | led st v _ hen ih =>
    obtain ⟨h1, h2, h3, h4⟩ := ih
    simp only [update_led]
    split
    · rename_i hp
      replace hp : st.previewing = true := hp
      exact ⟨fun hq => Bool.noConfusion (hp.symm.trans hq), h2, h3, h4⟩
    · exact ⟨h1, h2, h3, h4⟩
  | preview st _ hen ih =>
    obtain ⟨h1, h2, h3, h4⟩ := ih
    unfold toggle_external_preview
    split
    · exact ⟨fun hq => Bool.noConfusion hq,
        fun hr => Bool.noConfusion (hen.symm.trans (h3 hr)),
        fun hr => h3 hr, h4⟩
    · exact ⟨fun _ => rfl, fun _ => rfl, fun hr => h3 hr, h4⟩
  | start st durS freqS now tid thumbOk _ hen hrun ih =>
    have hpre := invOk_stop_preview st ih
    have hp0 := stop_preview_if_previewing st
    simp only [start_timelapse]
    split
    · apply invOk_capture
      exact ⟨fun _ => hpre.1 hp0, fun _ => hp0, fun _ => rfl, hpre.2.2.2⟩
    · exact hpre
  | tick st freq now tid tid2 thumbOk _ hrun hp ih =>
    obtain ⟨h1, h2, h3, h4⟩ := ih
    exact invOk_capture _ freq now tid2 thumbOk
      ⟨h1, h2, h3, fun i hi => Option.noConfusion hi⟩
  | stop st _ hrun ih => exact invOk_stop st ih
  | clean st _ ih =>
    obtain ⟨h1, h2, h3, h4⟩ := ih
    exact ⟨fun _ => rfl, h2, h3, h4⟩


/-! ### More structural lemmas -/

theorem capture_loop_endTime (st : AppState) (freq now tid : Nat) (capOk thumbOk : Bool) :
    (capture_loop st freq now tid capOk thumbOk).endTime = st.endTime := by
  by_cases hle : st.endTime ≤ now
  · rw [capture_loop_of_le st freq now tid capOk thumbOk hle]
    rfl
  · cases capOk
    · rw [capture_loop_fail st freq now tid thumbOk hle]
    · rw [capture_loop_ok st freq now tid thumbOk hle]

theorem capture_loop_running (st : AppState) (freq now tid : Nat) (capOk thumbOk : Bool)
    (h : ¬ st.endTime ≤ now) :
    (capture_loop st freq now tid capOk thumbOk).running = st.running := by
  cases capOk
  · rw [capture_loop_fail st freq now tid thumbOk h]
  · rw [capture_loop_ok st freq now tid thumbOk h]

theorem stop_preview_if_fields (st : AppState) :
    (stop_preview_if st).running = st.running ∧
    (stop_preview_if st).controlsEnabled = st.controlsEnabled ∧
    (stop_preview_if st).folder = st.folder ∧
    (stop_preview_if st).endTime = st.endTime ∧
    (stop_preview_if st).led_brightness = st.led_brightness ∧
    (stop_preview_if st).pending = st.pending ∧
    (stop_preview_if st).afterId = st.afterId := by
  unfold stop_preview_if
  split <;> exact ⟨rfl, rfl, rfl, rfl, rfl, rfl, rfl⟩

/-- A start request that fails validation returns right after the
preview-shutdown block. -/
theorem start_invalid_eq (st : AppState) (durS freqS : List Char) (now tid : Nat)
    (capOk thumbOk : Bool)
    (hbad : validOpt (parse_time_value durS) = false ∨
      validOpt (parse_time_value freqS) = false) :
    start_timelapse st durS freqS now tid capOk thumbOk = stop_preview_if st := by
  have hcond : (validOpt (parse_time_value durS) &&
      validOpt (parse_time_value freqS)) = false := by
    rcases hbad with h | h <;> simp [h]
  simp only [start_timelapse]
  rw [hcond]
  rfl

/-! ### The scheduled tick chain -/

theorem run_schedule_mem_lt (fuel : Nat) (st : AppState) (freq now : Nat) :
    ∀ t ∈ (run_schedule fuel st freq now).1, t < st.endTime := by
  induction fuel generalizing st now with
  | zero =>
    intro t ht
    simp only [run_schedule, List.not_mem_nil] at ht
  | succ fuel ih =>
    intro t ht
    simp only [run_schedule] at ht
    split at ht
    · simp at ht
    · rename_i hrun
      simp only [List.mem_cons] at ht
      rcases ht with heq | ht
      · rw [heq]
        by_contra hge
        rw [not_lt] at hge
        rw [capture_loop_of_le st freq now 0 true true hge] at hrun
        exact hrun rfl
      · have h2 := ih { capture_loop st freq now 0 true true with pending := none }
          (now + freq) t ht
        have e : ({ capture_loop st freq now 0 true true with
            pending := none } : AppState).endTime = st.endTime :=
          capture_loop_endTime st freq now 0 true true
        exact e ▸ h2

theorem run_schedule_finish (fuel : Nat) (st : AppState) (freq now c : Nat)
    (hrun : st.running = true)
    (hc : (run_schedule fuel st freq now).2.1 = some c) : st.endTime ≤ c := by
  induction fuel generalizing st now with
  | zero =>
    simp only [run_schedule] at hc
    cases hc
  | succ fuel ih =>
    simp only [run_schedule] at hc
    split at hc
    · rename_i hstop
      replace hc : some now = some c := hc
      injection hc with hc
      subst hc
      by_contra hlt
      rw [not_le] at hlt
      rw [capture_loop_running st freq now 0 true true (not_le.2 hlt)] at hstop
      rw [hrun] at hstop
      exact Bool.noConfusion hstop
    · rename_i hstop
      have hb : ({ capture_loop st freq now 0 true true with
          pending := none } : AppState).running = true := Bool.ne_false_iff.1 hstop
      replace hc : (run_schedule fuel
          { capture_loop st freq now 0 true true with pending := none }
          freq (now + freq)).2.1 = some c := hc
      have h2 := ih _ (now + freq) hb hc
      exact le_trans (le_of_eq (capture_loop_endTime st freq now 0 true true).symm) h2



/-! ## Claim theorems -/

/-- C1: the claim says illumination is set to the configured brightness
immediately before the photo acquisition and restored to 0.0 on every
exit path.  The code (lines 543-545) is two independent assignments, not
a scoped guard: on the normal path the LED is indeed restored, but when
`take_photo` raises, the tick aborts with the LED still at the configured
brightness.  This theorem evaluates both exit paths. -/
theorem capture_illumination_exit_paths (st : AppState) (freq now tid : Nat)
    (thumbOk : Bool) (h : ¬ st.endTime ≤ now) :
    (capture_loop st freq now tid true thumbOk).illum = 0 ∧
    (capture_loop st freq now tid false thumbOk).illum = st.led_brightness ∧
    (capture_loop st freq now tid false thumbOk).running = st.running := by
  rw [capture_loop_ok st freq now tid thumbOk h,
    capture_loop_fail st freq now tid thumbOk h]
  exact ⟨rfl, rfl, rfl⟩

/-- Witness for C1 at the started 30-second session: a failing capture at
time 0 leaves the LED at the stored brightness. -/
theorem capture_illumination_exit_paths_witness :
    (capture_loop startedA 5 0 1 true true).illum = 0 ∧
    (capture_loop startedA 5 0 1 false true).illum = startedA.led_brightness ∧
    (capture_loop startedA 5 0 1 false true).running = startedA.running :=
  capture_illumination_exit_paths startedA 5 0 1 true (by decide)

/-- C2: the claim says a failed Capture Step does not abort the session
because the next delayed re-entry is still armed.  In the code a raised
`take_photo` exception propagates out of the timer callback before
`root.after` runs, so nothing is re-armed (`pending` stays as it was, and
the fired callback had already been consumed) and the session silently
stalls while still marked running.  Only the thumbnail-decode failure is
non-fatal (last conjunct). -/
theorem capture_failure_drops_schedule (st : AppState) (freq now tid : Nat)
    (thumbOk : Bool) (h : ¬ st.endTime ≤ now) :
    (capture_loop st freq now tid false thumbOk).pending = st.pending ∧
    (capture_loop st freq now tid false thumbOk).afterId = st.afterId ∧
    (capture_loop st freq now tid false thumbOk).running = st.running ∧
    (capture_loop st freq now tid true thumbOk).pending = some tid := by
  rw [capture_loop_fail st freq now tid thumbOk h,
    capture_loop_ok st freq now tid thumbOk h]
  exact ⟨rfl, rfl, rfl, rfl⟩

/-- Witness for C2: at the started session (nothing armed, tick in
flight), a failing capture leaves nothing armed; a thumbnail failure
still arms the next tick. -/
theorem capture_failure_drops_schedule_witness :
    (capture_loop startedA 5 0 1 false true).pending = startedA.pending ∧
    (capture_loop startedA 5 0 1 false true).afterId = startedA.afterId ∧
    (capture_loop startedA 5 0 1 false true).running = startedA.running ∧
    (capture_loop startedA 5 0 1 true true).pending = some 1 :=
  capture_failure_drops_schedule startedA 5 0 1 true (by decide)

/-- C3: Scenario A.  Starting a 30-second duration with 5-second interval
at time 0 sets up exactly the state `startedA` and runs the first tick;
with instantaneous successful captures the tick chain captures exactly at
times 0, 5, 10, 15, 20, 25, ends at time 30 with the session no longer
running, and — in general — every tick first compares the time against
`end_time` and never initiates a capture at or past it, while the finish
happens at or after `end_time`. -/
theorem scheduler_scenarioA :
    start_timelapse initState ['3', '0', 's'] ['5', 's'] 0 1 true true =
      capture_loop startedA 5 0 1 true true ∧
    (run_schedule 100 startedA 5 0).1 = [0, 5, 10, 15, 20, 25] ∧
    (run_schedule 100 startedA 5 0).2.1 = some 30 ∧
    (run_schedule 100 startedA 5 0).2.2.running = false ∧
    (∀ fuel : Nat, ∀ st : AppState, ∀ freq now : Nat,
      ∀ t ∈ (run_schedule fuel st freq now).1, t < st.endTime) ∧
    (∀ fuel : Nat, ∀ st : AppState, ∀ freq now c : Nat, st.running = true →
      (run_schedule fuel st freq now).2.1 = some c → st.endTime ≤ c) :=
  ⟨by decide, by decide, by decide, by decide, run_schedule_mem_lt,
    fun fuel st freq now c h1 h2 => run_schedule_finish fuel st freq now c h1 h2⟩

/-- Witness for C3: the first capture of Scenario A happens before
`end_time`, and the finish time 30 is at or after `end_time`. -/
theorem scheduler_scenarioA_witness :
    (0 : Nat) < startedA.endTime ∧ startedA.endTime ≤ 30 :=
  ⟨scheduler_scenarioA.2.2.2.2.1 100 startedA 5 0 0 (by decide),
   scheduler_scenarioA.2.2.2.2.2 100 startedA 5 0 30 (by decide) (by decide)⟩

/-- C5: malformed duration strings — components out of the fixed order
(`30m 1h`), out-of-grammar trailing tokens (`10x`), the empty string —
either fail to parse or parse to 0, and every failed or zero result is
rejected by the start-request validator, so no session begins (the state
keeps `running` and the session folder unchanged). -/
theorem malformed_timespec_rejected :
    parse_time_value ['3', '0', 'm', ' ', '1', 'h'] = none ∧
    parse_time_value ['1', '0', 'x'] = none ∧
    parse_time_value [] = some 0 ∧
    (∀ o : Option Nat, o = none ∨ o = some 0 → validOpt o = false) ∧
    (∀ st : AppState, ∀ durS freqS : List Char, ∀ now tid : Nat,
      ∀ capOk thumbOk : Bool,
      validOpt (parse_time_value durS) = false ∨
        validOpt (parse_time_value freqS) = false →
      (start_timelapse st durS freqS now tid capOk thumbOk).running = st.running ∧
      (start_timelapse st durS freqS now tid capOk thumbOk).folder = st.folder) := by
  refine ⟨by decide, by decide, by decide, ?_, ?_⟩
  · rintro o (rfl | rfl) <;> rfl
  · intro st durS freqS now tid capOk thumbOk hbad
    rw [start_invalid_eq st durS freqS now tid capOk thumbOk hbad]
    obtain ⟨f1, f2, f3, f4, f5, f6, f7⟩ := stop_preview_if_fields st
    exact ⟨f1, f3⟩

/-- Witness for C5: `10x` fails the validator and a start request with it
leaves the session state unchanged. -/
theorem malformed_timespec_rejected_witness :
    validOpt (parse_time_value ['1', '0', 'x']) = false ∧
    (start_timelapse initState ['1', '0', 'x'] ['5', 's'] 0 1 true true).running =
      initState.running :=
  ⟨malformed_timespec_rejected.2.2.2.1 (parse_time_value ['1', '0', 'x'])
      (Or.inl (by decide)),
   (malformed_timespec_rejected.2.2.2.2 initState ['1', '0', 'x'] ['5', 's'] 0 1
      true true (Or.inl (by decide))).1⟩

/-- C6 counterexample: a 30-minute session whose first capture fails is a
reachable running state with the LED on; `stop_timelapse` then does end
the session but leaves illumination at 0.33 rather than 0.0, because stop
never touches the LED. -/
theorem stop_after_failed_capture_leaves_led_on :
    Reach stBad ∧ stBad.running = true ∧
    (stop_timelapse stBad).running = false ∧
    (stop_timelapse stBad).illum ≠ 0 :=
  ⟨Reach.start initState ['3', '0', 'm'] ['5', 's'] 0 1 false true Reach.init
      (by decide) (by decide),
   by decide, by decide, by decide⟩

/-- C6 amended: for every running session reachable with every capture
succeeding, an external stop request disarms the pending delayed re-entry
(a no-op when none is pending), marks the session not running, and leaves
illumination at 0.0 — stop itself leaves the illumination value
unchanged, so this holds exactly because a failure-free session keeps the
LED off between ticks. -/
theorem stop_cancels_and_resets (st : AppState) (h : ReachOk st)
    (hrun : st.running = true) :
    (stop_timelapse st).pending = none ∧
    (stop_timelapse st).running = false ∧
    (stop_timelapse st).illum = 0 ∧
    (stop_timelapse st).illum = st.illum := by
  obtain ⟨h1, h2, h3, h4⟩ := reachOk_inv st h
  have hil : st.illum = 0 := h1 (h2 hrun)
  cases hA : st.afterId with
  | none =>
    have hpend : st.pending = none := by
      cases hp : st.pending with
      | none => rfl
      | some i =>
        rw [h4 i hp] at hA
        exact Option.noConfusion hA
    rw [stop_timelapse_of_none st hA]
    exact ⟨hpend, rfl, hil, rfl⟩
  | some j =>
    rw [stop_timelapse_of_some st j hA]
    refine ⟨?_, rfl, hil, rfl⟩
    show (if st.pending = some j then none else st.pending) = none
    split
    · rfl
    · rename_i hne
      cases hp : st.pending with
      | none => rfl
      | some i =>
        have he := (h4 i hp).symm.trans hA
        injection he with he
        rw [he] at hp
        exact absurd hp hne

/-- Witness for C6 at a failure-free running session. -/
theorem stop_cancels_and_resets_witness :
    (stop_timelapse stGood).pending = none ∧ (stop_timelapse stGood).illum = 0 := by
  have h := stop_cancels_and_resets stGood
      (ReachOk.start initState ['3', '0', 's'] ['5', 's'] 0 1 true ReachOk.init
        (by decide) (by decide))
      (by decide)
  exact ⟨h.1, h.2.2.1⟩

/-- C7 counterexample: with a preview active (a reachable state), a start
request with invalid duration `10x` is rejected, yet the preview has been
stopped and illumination driven to 0.0 first — state does change. -/
theorem invalid_start_stops_preview :
    Reach stPrev ∧ stPrev.previewing = true ∧ stPrev.illum ≠ 0 ∧
    (start_timelapse stPrev ['1', '0', 'x'] ['5', 's'] 0 1 true true).previewing
      = false ∧
    (start_timelapse stPrev ['1', '0', 'x'] ['5', 's'] 0 1 true true).illum = 0 ∧
    (start_timelapse stPrev ['1', '0', 'x'] ['5', 's'] 0 1 true true).running
      = false :=
  ⟨Reach.preview initState Reach.init (by decide),
   by decide, by decide, by decide, by decide, by decide⟩

/-- C7 amended: a start request that fails validation surfaces an error
and aborts with no session started, no controls disabled, no session
folder created and `end_time` untouched; however the script stops an
active preview (illumination to 0.0) before validating, so the preview
and illumination state may change. -/
theorem invalid_start_aborts_request (st : AppState) (durS freqS : List Char)
    (now tid : Nat) (capOk thumbOk : Bool)
    (hbad : validOpt (parse_time_value durS) = false ∨
      validOpt (parse_time_value freqS) = false) :
    start_timelapse st durS freqS now tid capOk thumbOk = stop_preview_if st ∧
    (start_timelapse st durS freqS now tid capOk thumbOk).running = st.running ∧
    (start_timelapse st durS freqS now tid capOk thumbOk).controlsEnabled
      = st.controlsEnabled ∧
    (start_timelapse st durS freqS now tid capOk thumbOk).folder = st.folder ∧
    (start_timelapse st durS freqS now tid capOk thumbOk).endTime = st.endTime ∧
    (start_timelapse st durS freqS now tid capOk thumbOk).previewing = false := by
  have he := start_invalid_eq st durS freqS now tid capOk thumbOk hbad
  obtain ⟨f1, f2, f3, f4, f5, f6, f7⟩ := stop_preview_if_fields st
  rw [he]
  exact ⟨rfl, f1, f2, f3, f4, stop_preview_if_previewing st⟩

/-- Witness for C7 with an idle state and the invalid duration `10x`. -/
theorem invalid_start_aborts_request_witness :
    start_timelapse initState ['1', '0', 'x'] ['5', 's'] 0 1 true true =
      stop_preview_if initState :=
  (invalid_start_aborts_request initState ['1', '0', 'x'] ['5', 's'] 0 1 true true
    (Or.inl (by decide))).1

/-- C8 counterexample: start a session whose first capture fails, then
stop it; the resulting state is reachable and Idle (no preview, not
running) yet the LED is still at 0.33. -/
theorem idle_with_led_on_reachable :
    Reach stBadIdle ∧ stBadIdle.previewing = false ∧
    stBadIdle.running = false ∧ stBadIdle.illum ≠ 0 :=
  ⟨Reach.stop stBad
      (Reach.start initState ['3', '0', 'm'] ['5', 's'] 0 1 false true Reach.init
        (by decide) (by decide))
      (by decide),
   by decide, by decide, by decide⟩

/-- C8 amended: in every state reachable with every capture succeeding,
an idle control surface (no preview active, no timelapse running) implies
the shared illumination value is 0.0; all failure-free operations
preserve this invariant (`reachOk_inv`). -/
theorem idle_implies_led_off (st : AppState) (h : ReachOk st)
    (hp : st.previewing = false) (_hr : st.running = false) : st.illum = 0 :=
  (reachOk_inv st h).1 hp

/-- Witness for C8 at the freshly initialised application. -/
theorem idle_implies_led_off_witness : initState.illum = 0 :=
  idle_implies_led_off initState ReachOk.init (by decide) (by decide)

/-- C9: requesting a stop never raises (the `if self.after_id:` guard
prevents `after_cancel(None)`, the only raising call), a second stop
after one stop has no further effect on the session state, and a stop in
a settled idle state (not running, controls enabled, nothing armed) is a
no-op on the state. -/
theorem stop_idempotent_noop :
    (∀ st : AppState, (stop_run st).isSome = true) ∧
    (∀ st : AppState, stop_timelapse (stop_timelapse st) = stop_timelapse st) ∧
    (∀ st : AppState, st.running = false → st.controlsEnabled = true →
      st.pending = none → stop_timelapse st = st) := by
  refine ⟨fun st => ?_, fun st => ?_, fun st h1 h2 h3 => ?_⟩
  · unfold stop_run after_cancel
    cases hA : st.afterId with
    | none => rfl
    | some j => rfl
  · obtain ⟨lb, il, pv, rn, ce, aid, pd, et, fo, li⟩ := st
    cases aid with
    | none => rfl
    | some j =>
      by_cases hp : pd = some j
      · simp [stop_timelapse, stop_run, after_cancel, reset_controls, hp]
      · simp [stop_timelapse, stop_run, after_cancel, reset_controls, hp]
  · obtain ⟨lb, il, pv, rn, ce, aid, pd, et, fo, li⟩ := st
    replace h1 : rn = false := h1
    replace h2 : ce = true := h2
    replace h3 : pd = none := h3
    subst h1
    subst h2
    subst h3
    cases aid with
    | none => rfl
    | some j => simp [stop_timelapse, stop_run, after_cancel, reset_controls]

/-- Witness for C9: stopping the freshly initialised (never started)
application changes nothing. -/
theorem stop_idempotent_noop_witness : stop_timelapse initState = initState :=
  stop_idempotent_noop.2.2 initState (by decide) (by decide) (by decide)

/-- C10: moving the LED slider while no preview is active only stores the
new brightness; the hardware illumination value is untouched (it is
driven immediately only while previewing), so the slider alone cannot
turn the LED on. -/
theorem update_led_idle_only_stores (st : AppState) (v : ℚ)
    (hp : st.previewing = false) :
    update_led st v = { st with led_brightness := v } := by
  simp only [update_led]
  split
  · rename_i hq
    replace hq : st.previewing = true := hq
    rw [hq] at hp
    exact Bool.noConfusion hp
  · rfl

/-- Witness for C10 at the initial state with slider value 0.5. -/
theorem update_led_idle_only_stores_witness :
    update_led initState (mkRat 1 2) =
      { initState with led_brightness := mkRat 1 2 } :=
  update_led_idle_only_stores initState (mkRat 1 2) (by decide)


end LCI
